import Mathlib

/-!
Binary operations on safe integers.

A shallow embedding of `include/safe_base_operations.hpp`: the policy resolver
`get_common_policies`, the result-type calculators `addition_result` and
`subtraction_result`, the checked operators `operator+` and `operator-`, and the
adapters for a plain integral value on the left of a safe value.

Compile-time computations (template instantiation, `static_assert`) are functions
into `Except String`, the string being the diagnostic of the failed assertion.
Run-time computations return an `outcome`.
-/

namespace SafeNumerics

/-! ## Data model -/

/-- An integral type of the host language: its signedness and its width in bits. -/
structure integral where
  is_signed : Bool
  bits : Nat
deriving DecidableEq, Repr

/-- Least value of an integral type (two's complement for the signed ones). -/
def integral.min (T : integral) : Int :=
  if T.is_signed then -(2 ^ (T.bits - 1)) else 0

/-- Greatest value of an integral type. -/
def integral.max (T : integral) : Int :=
  if T.is_signed then 2 ^ (T.bits - 1) - 1 else 2 ^ T.bits - 1

/-- A value lies in the range of an integral type. -/
def integral.holds (T : integral) (v : Int) : Prop :=
  T.min ≤ v ∧ v ≤ T.max

instance (T : integral) (v : Int) : Decidable (T.holds v) := by
  unfold integral.holds; exact inferInstance

/-- An operand type: a plain integral type `T`, or a type derived from
`safe_base<Stored, Derived>`, which carries exactly one policy set. -/
inductive operand_type (P : Type) where
  | plain (T : integral)
  | safe (Stored : integral) (policies : P)
deriving DecidableEq, Repr

/-- What a type-level computation of `boost::mpl` yields here: the placeholder
`boost::mpl::void_` or a policy set. -/
inductive mpl_type (P : Type) where
  | void_
  | policies (p : P)
deriving DecidableEq, Repr

/-- The trait `is_safe<T>`. -/
def is_safe {P : Type} : operand_type P → Bool
  | .plain _ => false
  | .safe _ _ => true

/-- The trait `get_policies<T>`, packed as `eval_if` uses it: `eval_if` evaluates it
on a safe type only, and takes `identity<void_>` on any other type. -/
def get_policies {P : Type} : operand_type P → mpl_type P
  | .plain _ => .void_
  | .safe _ p => .policies p

/-- The trait `base_type<T>`: the stored type of a safe type, a plain type itself. -/
def base_type {P : Type} : operand_type P → integral
  | .plain T => T
  | .safe Stored _ => Stored

/-- The conditions of an arithmetic error. -/
inductive condition where
  | overflow
  | underflow
  | divide_by_zero
  | domain_error
deriving DecidableEq, Repr

/-- How the evaluation of an operator ends: a value is returned, an error is raised
(its condition and its message), the program is aborted, or the behaviour is undefined
(a native operation of the host language outside its domain). -/
inductive outcome where
  | returns (v : Int)
  | raises (c : condition) (what : String)
  | aborts
  | undefined
deriving DecidableEq, Repr

/-- An exception policy decides the outcome of a detected arithmetic error. -/
structure exception_policy where
  on_error : condition → outcome

/-- A promotion policy gives, per operation, the result type of an operand-type pair
under a policy set (`promotion_policy::addition_result<T, U, P>::type`). -/
structure promotion_policy (P : Type) where
  addition_result : operand_type P → operand_type P → P → operand_type P
  subtraction_result : operand_type P → operand_type P → P → operand_type P

/-- The accessors of `policies.hpp`, which is not part of the sources at hand:
`get_promotion_policy<P>` and `get_exception_policy<P>`. -/
structure policy_traits (P : Type) where
  get_promotion_policy : P → promotion_policy P
  get_exception_policy : P → exception_policy

/-- A plain integral value: its type and its value. -/
structure integral_value where
  T : integral
  value : Int
deriving DecidableEq, Repr

/-- A value of `safe_base<Stored, Derived>`: the stored type, the policy set that
`Derived` carries, and the stored value. -/
structure safe_base (P : Type) where
  Stored : integral
  policies : P
  m_t : Int
deriving DecidableEq, Repr

/-- An operand of a binary operator: a plain value or a safe value. -/
inductive operand (P : Type) where
  | plain (x : integral_value)
  | safe (s : safe_base P)
deriving DecidableEq, Repr

/-- The static type of an operand. -/
def operand.type {P : Type} : operand P → operand_type P
  | .plain x => .plain x.T
  | .safe s => .safe s.Stored s.policies

/-- The operand seen through `static_cast<const base_type<T>::type &>`. -/
def operand.base_value {P : Type} : operand P → Int
  | .plain x => x.value
  | .safe s => s.m_t

/-! ## Policy resolver -/

/-- The struct `get_common_policies<T, U>`: both `static_assert`s, then the member `type`. -/
def get_common_policies {P : Type} [DecidableEq P] (T U : operand_type P) :
    Except String (mpl_type P) :=
  if !(is_safe T || is_safe U) then
    .error "at least one type must be a safe type"
  else
    let policies_t := if is_safe T then get_policies T else mpl_type.void_
    let policies_u := if is_safe U then get_policies U else mpl_type.void_
    -- if both types are safe, the policies have to be the same!
    if !(if is_safe T && is_safe U then decide (policies_t = policies_u) else true) then
      .error "if both types are safe, the policies have to be the same!"
    else
      -- return the one from the first safe type
      .ok (if is_safe T then policies_t
           else if is_safe U then policies_u
           else mpl_type.void_)

/-! ## Result types, addition and subtraction -/

/-- The members of `addition_result<T, U>` and of `subtraction_result<T, U>`. -/
structure operation_result (P : Type) where
  P_ : P
  promotion : promotion_policy P
  exception : exception_policy
  type : operand_type P

/-- The policy set of a resolved `mpl` type; `void_` has no promotion policy, so
`get_promotion_policy<void_>` does not instantiate. -/
def resolved {P : Type} : mpl_type P → Except String P
  | .void_ => .error "get_promotion_policy: void_ is not a policy set"
  | .policies p => .ok p

/-- The struct `addition_result<T, U>`. -/
def addition_result {P : Type} [DecidableEq P] (traits : policy_traits P)
    (T U : operand_type P) : Except String (operation_result P) := do
  let p ← get_common_policies T U >>= resolved
  let promotion := traits.get_promotion_policy p
  let exception := traits.get_exception_policy p
  pure ⟨p, promotion, exception, promotion.addition_result T U p⟩

/-- The struct `subtraction_result<T, U>`. -/
def subtraction_result {P : Type} [DecidableEq P] (traits : policy_traits P)
    (T U : operand_type P) : Except String (operation_result P) := do
  let p ← get_common_policies T U >>= resolved
  let promotion := traits.get_promotion_policy p
  let exception := traits.get_exception_policy p
  pure ⟨p, promotion, exception, promotion.subtraction_result T U p⟩

/-- The signature of a checked primitive of `checked.hpp`, which is not part of the
sources at hand: `checked::add<R, E>(t, u)` and `checked::subtract<R, E>(t, u)`. -/
abbrev checked_primitive : Type := integral → exception_policy → Int → Int → outcome

/-- The operator `operator+(const T & t, const U & u)`; `.error` is a program that does
not compile. -/
def operator_plus {P : Type} [DecidableEq P] (traits : policy_traits P)
    (checked_add : checked_primitive) (t u : operand P) : Except String outcome :=
  if !(is_safe t.type || is_safe u.type) then
    .error "Neither type is a safe type"
  else do
    let ar ← addition_result traits t.type u.type
    let result_base_type := base_type ar.type
    pure (checked_add result_base_type ar.exception t.base_value u.base_value)

/-- The operator `operator-(const T & t, const U & u)`; `.error` is a program that does
not compile. -/
def operator_minus {P : Type} [DecidableEq P] (traits : policy_traits P)
    (checked_subtract : checked_primitive) (t u : operand P) : Except String outcome :=
  if !(is_safe t.type || is_safe u.type) then
    .error "Neither type is a safe type"
  else do
    let sr ← subtraction_result traits t.type u.type
    let result_base_type := base_type sr.type
    pure (checked_subtract result_base_type sr.exception t.base_value u.base_value)

/-! ## Native arithmetic of the host language -/

/-- The type `int` of the host: signed, 32 bits wide. -/
def int_type : integral := ⟨true, 32⟩

/-- Integral promotion: a type narrower than `int` is promoted to `int`. -/
def promote (T : integral) : integral :=
  if T.bits < int_type.bits then int_type else T

/-- The usual arithmetic conversions, that is `decltype(T() / Stored())` and
`decltype(T() % Stored())`: both operands are promoted; with equal signedness the wider
type wins; otherwise the unsigned type wins unless the signed one is strictly wider. -/
def common_type (T U : integral) : integral :=
  let a := promote T
  let b := promote U
  if a.is_signed = b.is_signed then (if b.bits ≤ a.bits then a else b)
  else if a.is_signed then (if a.bits ≤ b.bits then b else a)
  else (if b.bits ≤ a.bits then a else b)

/-- Conversion of a value to an integral type: reduction modulo `2 ^ bits`. -/
def convert (T : integral) (v : Int) : Int :=
  if T.is_signed then (v + 2 ^ (T.bits - 1)) % 2 ^ T.bits - 2 ^ (T.bits - 1)
  else v % 2 ^ T.bits

/-- The native `lhs / rhs` on operands of types `T` and `U`: both are converted to the
common type; the quotient truncates toward zero; a zero divisor and a quotient that the
common type cannot hold are undefined behaviour. -/
def native_divide (T U : integral) (lhs rhs : Int) : outcome :=
  let C := common_type T U
  let a := convert C lhs
  let b := convert C rhs
  if b = 0 then .undefined
  else if C.holds (a.tdiv b) then .returns (a.tdiv b)
  else .undefined

/-- The native `lhs % rhs` on operands of types `T` and `U`: the remainder has the sign
of the dividend; it is undefined wherever the quotient is. -/
def native_modulus (T U : integral) (lhs rhs : Int) : outcome :=
  let C := common_type T U
  let a := convert C lhs
  let b := convert C rhs
  if b = 0 then .undefined
  else if C.holds (a.tdiv b) then .returns (a.tmod b)
  else .undefined

/-- The cast `static_cast<R>(e)` applied to the outcome of evaluating `e`. -/
def static_cast (R : integral) : outcome → outcome
  | .returns v => .returns (convert R v)
  | o => o

/-- Modelled from the spec: `safe_compare::equal`, of a header that is not part of the
sources at hand, is the comparison that is safe against mixed operand types: it tests
the two values for equality as mathematical integers. -/
def safe_compare.equal (t u : Int) : Bool :=
  decide (t = u)

/-! ## A plain integral value on the left of a safe value -/

/-- The member comparison operators of `safe_base<Stored, Derived>`, declared in
`safe_base.hpp`, which is not part of the sources at hand: `s > u`, `s < u`, `s == u`,
`s != u`, `s <= u`, `s >= u` for a safe receiver `s` and any operand `u`. -/
structure safe_base_members (P : Type) where
  gt : safe_base P → operand P → Bool
  lt : safe_base P → operand P → Bool
  eq : safe_base P → operand P → Bool
  ne : safe_base P → operand P → Bool
  le : safe_base P → operand P → Bool
  ge : safe_base P → operand P → Bool

/-- Modelled from the spec: the member comparisons of `safe_base.hpp` compare the stored
value of the receiver with the value of the other operand as mathematical integers. -/
def value_members (P : Type) : safe_base_members P where
  gt s u := decide (s.m_t > u.base_value)
  lt s u := decide (s.m_t < u.base_value)
  eq s u := decide (s.m_t = u.base_value)
  ne s u := decide (s.m_t ≠ u.base_value)
  le s u := decide (s.m_t ≤ u.base_value)
  ge s u := decide (s.m_t ≥ u.base_value)

/-- The adapter `operator<(const T & lhs, const safe_base<Stored, Derived> & rhs)`. -/
def operator_lt {P : Type} (m : safe_base_members P) (lhs : integral_value)
    (rhs : safe_base P) : Bool :=
  m.gt rhs (.plain lhs)

/-- The adapter `operator>(const T & lhs, const safe_base<Stored, Derived> & rhs)`. -/
def operator_gt {P : Type} (m : safe_base_members P) (lhs : integral_value)
    (rhs : safe_base P) : Bool :=
  m.lt rhs (.plain lhs)

/-- The adapter `operator==(const T & lhs, const safe_base<Stored, Derived> & rhs)`. -/
def operator_eq {P : Type} (m : safe_base_members P) (lhs : integral_value)
    (rhs : safe_base P) : Bool :=
  m.eq rhs (.plain lhs)

/-- The adapter `operator!=(const T & lhs, const safe_base<Stored, Derived> & rhs)`:
its body is `return rhs != rhs;`, so `lhs` is bound and not used. -/
def operator_ne {P : Type} (m : safe_base_members P) (_lhs : integral_value)
    (rhs : safe_base P) : Bool :=
  m.ne rhs (.safe rhs)

/-- The adapter `operator>=(const T & lhs, const safe_base<Stored, Derived> & rhs)`. -/
def operator_ge {P : Type} (m : safe_base_members P) (lhs : integral_value)
    (rhs : safe_base P) : Bool :=
  m.le rhs (.plain lhs)

/-- The adapter `operator<=(const T & lhs, const safe_base<Stored, Derived> & rhs)`. -/
def operator_le {P : Type} (m : safe_base_members P) (lhs : integral_value)
    (rhs : safe_base P) : Bool :=
  m.ge rhs (.plain lhs)

/-- The adapter `operator/(const T & lhs, const safe_base<Stored, Derived> & rhs)`. Its
template parameter `PromotionPolicy` occurs in no argument and in no statement of the body;
the embedding is of the function with that parameter supplied. -/
def operator_div {P : Type} (lhs : integral_value) (rhs : safe_base P) : outcome :=
  if safe_compare.equal 0 rhs.m_t then
    .raises .domain_error "Divide by zero"
  else
    static_cast (common_type lhs.T rhs.Stored)
      (native_divide lhs.T rhs.Stored lhs.value rhs.m_t)

/-- The adapter `operator%(const T & lhs, const safe_base<Stored, Derived> & rhs)`, with
the same unused template parameter `PromotionPolicy`. -/
def operator_mod {P : Type} (lhs : integral_value) (rhs : safe_base P) : outcome :=
  if safe_compare.equal 0 rhs.m_t then
    .raises .domain_error "Divide by zero"
  else
    static_cast (common_type lhs.T rhs.Stored)
      (native_modulus lhs.T rhs.Stored lhs.value rhs.m_t)

/-- The type `signed char`: signed, 8 bits wide. -/
def int8 : integral := ⟨true, 8⟩

/-- An exception policy that raises a reportable error for every condition. -/
def throw_exception : exception_policy where
  on_error c := .raises c "arithmetic error"

/-- An exception policy that substitutes the value `0` for every condition. -/
def ignore_exception : exception_policy where
  on_error _ := .returns 0

/-- A promotion policy whose result is always a safe 8-bit signed type. -/
def to_int8 (P : Type) : promotion_policy P where
  addition_result _ _ p := .safe int8 p
  subtraction_result _ _ p := .safe int8 p

/-- Policy sets named by a number: an even one throws, an odd one substitutes. -/
def nat_traits : policy_traits Nat where
  get_promotion_policy _ := to_int8 Nat
  get_exception_policy p := if p % 2 = 0 then throw_exception else ignore_exception

/-- Modelled from the spec: `checked::add<R, E>(t, u)` returns the exact sum when the
type `R` holds it and invokes the exception policy `E` with the overflow condition
otherwise. -/
def checked.add : checked_primitive := fun R E t u =>
  if R.holds (t + u) then .returns (t + u) else E.on_error .overflow

/-- Modelled from the spec: `checked::subtract<R, E>(t, u)` returns the exact difference
when the type `R` holds it, and otherwise invokes the exception policy `E`, with the
overflow condition above the range of `R` and the underflow condition below it. -/
def checked.subtract : checked_primitive := fun R E t u =>
  if R.holds (t - u) then .returns (t - u)
  else if R.max < t - u then E.on_error .overflow
  else E.on_error .underflow

/-- Modelled from the spec: the contract of `checked::add`, which reports overflow
exactly when the type `R` does not hold the exact sum, and returns the exact sum otherwise. -/
def add_contract (f : checked_primitive) : Prop :=
  ∀ (R : integral) (E : exception_policy) (t u : Int),
    f R E t u = if R.holds (t + u) then .returns (t + u) else E.on_error .overflow

/-- Modelled from the spec: the contract of `checked::subtract`, which reports a condition
exactly when the type `R` does not hold the exact difference (overflow above the range,
underflow below it), and returns the exact difference otherwise. -/
def subtract_contract (f : checked_primitive) : Prop :=
  ∀ (R : integral) (E : exception_policy) (t u : Int),
    f R E t u = if R.holds (t - u) then .returns (t - u)
      else if R.max < t - u then E.on_error .overflow
      else E.on_error .underflow

/-- Modelled from the spec: the member comparisons compare the stored value of the safe
receiver with the value of the other operand as mathematical integers. -/
def compares_values {P : Type} (m : safe_base_members P) : Prop :=
  ∀ (s : safe_base P) (u : operand P),
    m.gt s u = decide (s.m_t > u.base_value) ∧
    m.lt s u = decide (s.m_t < u.base_value) ∧
    m.eq s u = decide (s.m_t = u.base_value) ∧
    m.ne s u = decide (s.m_t ≠ u.base_value) ∧
    m.le s u = decide (s.m_t ≤ u.base_value) ∧
    m.ge s u = decide (s.m_t ≥ u.base_value)

/-- The type `unsigned int`: unsigned, 32 bits wide. -/
def uint_type : integral := ⟨false, 32⟩

/-- C1: for two safe operand types, resolution succeeds with the shared policy set when
the two policy sets are equal; when they differ it fails with the diagnostic of the second
`static_assert`, and so do `addition_result`, `subtraction_result`, `operator+` and
`operator-` on operands of these types, whatever the values. -/
theorem get_common_policies_both_safe {P : Type} [DecidableEq P] (traits : policy_traits P)
    (checked_add checked_subtract : checked_primitive) (S1 S2 : integral) (p q : P) :
    (p = q →
      get_common_policies (.safe S1 p) (.safe S2 q) = .ok (.policies p)) ∧
    (p ≠ q →
      get_common_policies (.safe S1 p) (.safe S2 q)
        = .error "if both types are safe, the policies have to be the same!" ∧
      (∀ r, addition_result traits (.safe S1 p) (.safe S2 q) ≠ .ok r) ∧
      (∀ r, subtraction_result traits (.safe S1 p) (.safe S2 q) ≠ .ok r) ∧
      (∀ v w o, operator_plus traits checked_add (.safe ⟨S1, p, v⟩) (.safe ⟨S2, q, w⟩)
        ≠ .ok o) ∧
      (∀ v w o, operator_minus traits checked_subtract (.safe ⟨S1, p, v⟩) (.safe ⟨S2, q, w⟩)
        ≠ .ok o)) := by
  constructor
  · intro h
    subst h
    simp [get_common_policies, is_safe, get_policies]
  · intro h
    have hg : get_common_policies (.safe S1 p) (.safe S2 q)
        = .error "if both types are safe, the policies have to be the same!" := by
      simp [get_common_policies, is_safe, get_policies, h]
    refine ⟨hg, ?_, ?_, ?_, ?_⟩
    · intro r
      simp [addition_result, hg, bind, Except.bind]
    · intro r
      simp [subtraction_result, hg, bind, Except.bind]
    · intro v w o
      simp [operator_plus, operand.type, is_safe, addition_result, hg, bind, Except.bind]
    · intro v w o
      simp [operator_minus, operand.type, is_safe, subtraction_result, hg, bind, Except.bind]

/-- Witness of C1 on policy sets named by numbers: the sets 0 and 0 resolve to 0, the
sets 0 and 1 do not resolve. -/
theorem get_common_policies_both_safe_witness :
    get_common_policies (.safe int8 (0 : Nat)) (.safe int_type 0) = .ok (.policies 0) ∧
    get_common_policies (.safe int8 (0 : Nat)) (.safe int_type 1)
      = .error "if both types are safe, the policies have to be the same!" :=
  ⟨(get_common_policies_both_safe nat_traits checked.add checked.subtract
      int8 int_type 0 0).1 rfl,
   ((get_common_policies_both_safe nat_traits checked.add checked.subtract
      int8 int_type 0 1).2 (by decide)).1⟩

/-- C2: when exactly one operand type is safe, resolution succeeds with the policy set of
the safe one, on the left as on the right, whatever the plain type is. -/
theorem get_common_policies_one_safe {P : Type} [DecidableEq P] (T S : integral) (p : P) :
    get_common_policies (.safe S p) (.plain T) = .ok (.policies p) ∧
    get_common_policies (.plain T) (.safe S p) = .ok (.policies p) := by
  constructor <;> simp [get_common_policies, is_safe, get_policies]

/-- C3: on two plain types resolution fails with the diagnostic of the first
`static_assert`; no resolution yields `void_`; and resolution fails exactly when neither
type is safe or both are safe with different policy sets. -/
theorem get_common_policies_fails_iff {P : Type} [DecidableEq P] :
    (∀ T U : integral,
      get_common_policies (P := P) (.plain T) (.plain U)
        = .error "at least one type must be a safe type") ∧
    (∀ A B : operand_type P, get_common_policies A B ≠ .ok .void_) ∧
    (∀ A B : operand_type P,
      (∃ e, get_common_policies A B = .error e) ↔
        ((is_safe A = false ∧ is_safe B = false) ∨
         (is_safe A = true ∧ is_safe B = true ∧ get_policies A ≠ get_policies B))) := by
  refine ⟨?_, ?_, ?_⟩
  · intro T U
    simp [get_common_policies, is_safe]
  · intro A B
    cases A <;> cases B <;> simp [get_common_policies, is_safe, get_policies]
    split <;> simp
  · intro A B
    cases A <;> cases B <;> simp [get_common_policies, is_safe, get_policies]
    split <;> simp_all

/-! ## Checked addition and subtraction -/

/-- Once resolution succeeds, at least one operand type is safe. -/
theorem is_safe_of_resolved {P : Type} [DecidableEq P] (A B : operand_type P) (r : mpl_type P)
    (h : get_common_policies A B = .ok r) : (is_safe A || is_safe B) = true := by
  cases A <;> cases B <;> simp_all [get_common_policies, is_safe]

/-- Unfolding of `operator+` on a resolved operand pair. -/
theorem operator_plus_resolved {P : Type} [DecidableEq P] (traits : policy_traits P)
    (checked_add : checked_primitive) (t u : operand P) (p : P)
    (h : get_common_policies t.type u.type = .ok (.policies p)) :
    operator_plus traits checked_add t u
      = .ok (checked_add
          (base_type ((traits.get_promotion_policy p).addition_result t.type u.type p))
          (traits.get_exception_policy p) t.base_value u.base_value) := by
  have hs := is_safe_of_resolved _ _ _ h
  simp [operator_plus, addition_result, h, hs, resolved, bind, Except.bind, pure, Except.pure]

/-- Unfolding of `operator-` on a resolved operand pair. -/
theorem operator_minus_resolved {P : Type} [DecidableEq P] (traits : policy_traits P)
    (checked_subtract : checked_primitive) (t u : operand P) (p : P)
    (h : get_common_policies t.type u.type = .ok (.policies p)) :
    operator_minus traits checked_subtract t u
      = .ok (checked_subtract
          (base_type ((traits.get_promotion_policy p).subtraction_result t.type u.type p))
          (traits.get_exception_policy p) t.base_value u.base_value) := by
  have hs := is_safe_of_resolved _ _ _ h
  simp [operator_minus, subtraction_result, h, hs, resolved, bind, Except.bind, pure,
    Except.pure]

/-- C4: let the operand types of `t + u` resolve to the policy set `p`, let `R` be the base
type of the result type that the promotion policy of `p` gives, and let `checked::add` keep
its contract. Then `t + u` returns the exact sum when `R` holds it and is the outcome of the
exception policy of `p` on the overflow condition otherwise; a returned value other than
the exact sum is the substitute of that policy; and the greatest value of `R` plus 1 is
that overflow outcome. -/
theorem operator_plus_detects_overflow {P : Type} [DecidableEq P] (traits : policy_traits P)
    (checked_add : checked_primitive) (hc : add_contract checked_add)
    (t u : operand P) (p : P)
    (h : get_common_policies t.type u.type = .ok (.policies p)) :
    operator_plus traits checked_add t u
      = .ok (if (base_type ((traits.get_promotion_policy p).addition_result
                  t.type u.type p)).holds (t.base_value + u.base_value)
             then .returns (t.base_value + u.base_value)
             else (traits.get_exception_policy p).on_error .overflow) ∧
    (∀ v, operator_plus traits checked_add t u = .ok (.returns v) →
      v = t.base_value + u.base_value ∨
      (traits.get_exception_policy p).on_error .overflow = .returns v) ∧
    (t.base_value = (base_type ((traits.get_promotion_policy p).addition_result
                      t.type u.type p)).max →
      u.base_value = 1 →
      operator_plus traits checked_add t u
        = .ok ((traits.get_exception_policy p).on_error .overflow)) := by
  have hop := operator_plus_resolved traits checked_add t u p h
  rw [hc] at hop
  refine ⟨hop, ?_, ?_⟩
  · intro v hv
    rw [hop] at hv
    split at hv
    · left
      simpa using hv.symm
    · right
      simpa using hv
  · intro ht hu
    rw [hop, if_neg]
    intro hh
    have := hh.2
    omega

/-- Witness of C4: a safe 8-bit signed 127 plus the plain 1 is the overflow error of the
throwing policy, not the wrapped value -128. -/
theorem operator_plus_detects_overflow_witness :
    operator_plus nat_traits checked.add (.safe ⟨int8, 0, 127⟩) (.plain ⟨int_type, 1⟩)
      = .ok (.raises .overflow "arithmetic error") ∧
    operator_plus nat_traits checked.add (.safe ⟨int8, 0, 127⟩) (.plain ⟨int_type, 1⟩)
      ≠ .ok (.returns (-128)) := by
  have h := (operator_plus_detects_overflow nat_traits checked.add (fun _ _ _ _ => rfl)
    (.safe ⟨int8, 0, 127⟩) (.plain ⟨int_type, 1⟩) 0 rfl).2.2 rfl rfl
  rw [h]
  exact ⟨rfl, fun hh => absurd (Except.ok.inj hh) (by decide)⟩

/-- C5: let the operand types of `t - u` resolve to the policy set `p`, let `R` be the base
type of the result type that the promotion policy of `p` gives, and let `checked::subtract`
keep its contract. Then `t - u` returns the exact difference when `R` holds it and is the
outcome of the exception policy of `p` on the overflow or underflow condition otherwise; a
returned value other than the exact difference is a substitute of that policy; and the
least value of `R` minus 1 is the underflow outcome. -/
theorem operator_minus_detects_underflow {P : Type} [DecidableEq P]
    (traits : policy_traits P) (checked_subtract : checked_primitive)
    (hc : subtract_contract checked_subtract) (t u : operand P) (p : P)
    (h : get_common_policies t.type u.type = .ok (.policies p)) :
    operator_minus traits checked_subtract t u
      = .ok (if (base_type ((traits.get_promotion_policy p).subtraction_result
                  t.type u.type p)).holds (t.base_value - u.base_value)
             then .returns (t.base_value - u.base_value)
             else if (base_type ((traits.get_promotion_policy p).subtraction_result
                  t.type u.type p)).max < t.base_value - u.base_value
             then (traits.get_exception_policy p).on_error .overflow
             else (traits.get_exception_policy p).on_error .underflow) ∧
    (∀ v, operator_minus traits checked_subtract t u = .ok (.returns v) →
      v = t.base_value - u.base_value ∨
      (traits.get_exception_policy p).on_error .overflow = .returns v ∨
      (traits.get_exception_policy p).on_error .underflow = .returns v) ∧
    (t.base_value = (base_type ((traits.get_promotion_policy p).subtraction_result
                      t.type u.type p)).min →
      u.base_value = 1 →
      operator_minus traits checked_subtract t u
        = .ok ((traits.get_exception_policy p).on_error .underflow)) := by
  have hop := operator_minus_resolved traits checked_subtract t u p h
  rw [hc] at hop
  refine ⟨hop, ?_, ?_⟩
  · intro v hv
    rw [hop] at hv
    split at hv
    · left
      simpa using hv.symm
    · split at hv
      · right; left
        simpa using hv
      · right; right
        simpa using hv
  · intro ht hu
    have hle : (base_type ((traits.get_promotion_policy p).subtraction_result
        t.type u.type p)).min ≤ (base_type ((traits.get_promotion_policy p).subtraction_result
        t.type u.type p)).max + 1 := by
      unfold integral.min integral.max
      split
      · have : (0 : Int) ≤ 2 ^ ((base_type ((traits.get_promotion_policy p).subtraction_result
            t.type u.type p)).bits - 1) := by positivity
        omega
      · have : (0 : Int) ≤ 2 ^ ((base_type ((traits.get_promotion_policy p).subtraction_result
            t.type u.type p)).bits) := by positivity
        omega
    rw [hop, if_neg, if_neg]
    · omega
    · intro hh
      have := hh.1
      omega

/-- Witness of C5: a safe 8-bit signed -128 minus the plain 1 is the underflow error of the
throwing policy, not the wrapped value 127. -/
theorem operator_minus_detects_underflow_witness :
    operator_minus nat_traits checked.subtract (.safe ⟨int8, 0, -128⟩) (.plain ⟨int_type, 1⟩)
      = .ok (.raises .underflow "arithmetic error") ∧
    operator_minus nat_traits checked.subtract (.safe ⟨int8, 0, -128⟩) (.plain ⟨int_type, 1⟩)
      ≠ .ok (.returns 127) := by
  have h := (operator_minus_detects_underflow nat_traits checked.subtract
    (fun _ _ _ _ => rfl) (.safe ⟨int8, 0, -128⟩) (.plain ⟨int_type, 1⟩) 0 rfl).2.2 rfl rfl
  rw [h]
  exact ⟨rfl, fun hh => absurd (Except.ok.inj hh) (by decide)⟩

/-! ## Division and modulus with a plain dividend -/

/-- The common type of two integral types is at least as wide as `int` and as each of
the two. -/
theorem common_type_bits (T U : integral) :
    32 ≤ (common_type T U).bits ∧ T.bits ≤ (common_type T U).bits ∧
    U.bits ≤ (common_type T U).bits := by
  unfold common_type promote int_type
  dsimp only
  split_ifs <;> simp_all <;> omega

/-- Zero lies in the range of every integral type. -/
theorem integral.holds_zero (C : integral) : C.holds 0 := by
  unfold integral.holds integral.min integral.max
  have h1 : (1 : Int) ≤ 2 ^ (C.bits - 1) := one_le_pow₀ (by norm_num)
  have h2 : (1 : Int) ≤ 2 ^ C.bits := one_le_pow₀ (by norm_num)
  split <;> constructor <;> omega

/-- Converting zero gives zero. -/
theorem convert_zero (C : integral) (hC : 1 ≤ C.bits) : convert C 0 = 0 := by
  unfold convert
  split
  · have hlt : (2 : Int) ^ (C.bits - 1) < 2 ^ C.bits :=
      pow_lt_pow_right₀ (by norm_num) (by omega)
    have hpos : (0 : Int) ≤ 2 ^ (C.bits - 1) := by positivity
    rw [zero_add, Int.emod_eq_of_lt hpos hlt]
    omega
  · simp

/-- A value converted to zero is a multiple of `2 ^ bits`. -/
theorem dvd_of_convert_eq_zero (C : integral) (hC : 1 ≤ C.bits) (v : Int)
    (h : convert C v = 0) : (2 : Int) ^ C.bits ∣ v := by
  unfold convert at h
  split at h
  · have hlt : (2 : Int) ^ (C.bits - 1) < 2 ^ C.bits :=
      pow_lt_pow_right₀ (by norm_num) (by omega)
    have hpos : (0 : Int) ≤ 2 ^ (C.bits - 1) := by positivity
    have h1 : (v + 2 ^ (C.bits - 1)) % 2 ^ C.bits = 2 ^ (C.bits - 1) % 2 ^ C.bits := by
      rw [Int.emod_eq_of_lt hpos hlt]
      omega
    have h2 := Int.emod_eq_emod_iff_emod_sub_eq_zero.1 h1
    rw [add_sub_cancel_right] at h2
    exact Int.dvd_of_emod_eq_zero h2
  · exact Int.dvd_of_emod_eq_zero h

/-- A non-zero value of a type stays non-zero in a type that is at least as wide. -/
theorem convert_ne_zero (S C : integral) (hC : 1 ≤ C.bits) (hSC : S.bits ≤ C.bits)
    (v : Int) (hv : S.holds v) (hne : v ≠ 0) : convert C v ≠ 0 := by
  intro h
  have hdvd := dvd_of_convert_eq_zero C hC v h
  apply hne
  apply Int.eq_zero_of_abs_lt_dvd hdvd
  have hle : (2 : Int) ^ S.bits ≤ 2 ^ C.bits := pow_le_pow_right₀ (by norm_num) hSC
  have hlt : (2 : Int) ^ (S.bits - 1) < 2 ^ C.bits :=
    pow_lt_pow_right₀ (by norm_num) (by omega)
  have hpos : (0 : Int) < 2 ^ (S.bits - 1) := by positivity
  unfold integral.holds integral.min integral.max at hv
  rw [abs_lt]
  split at hv <;> constructor <;> omega

/-- The native quotient and remainder of zero by a non-zero value of the divisor type. -/
theorem native_zero_dividend (T S : integral) (v : Int) (hv : S.holds v) (hne : v ≠ 0) :
    native_divide T S 0 v = .returns 0 ∧ native_modulus T S 0 v = .returns 0 := by
  obtain ⟨h32, -, hS⟩ := common_type_bits T S
  have hb := convert_ne_zero S (common_type T S) (by omega) hS v hv hne
  have ha := convert_zero (common_type T S) (by omega)
  have h0 := integral.holds_zero (common_type T S)
  simp [native_divide, native_modulus, ha, hb, h0]

/-- C6: `x / s` and `x % s` raise the domain error "Divide by zero" exactly when the
stored value of the divisor `s` is zero, whatever the dividend `x`; at such a divisor the
native division and modulus, which would be undefined, are not the outcome; and a zero
dividend with a non-zero divisor returns zero. -/
theorem operator_div_mod_zero_divisor {P : Type} (x : integral_value) (s : safe_base P) :
    (operator_div x s = .raises .domain_error "Divide by zero" ↔ s.m_t = 0) ∧
    (operator_mod x s = .raises .domain_error "Divide by zero" ↔ s.m_t = 0) ∧
    (s.m_t = 0 →
      native_divide x.T s.Stored x.value s.m_t = .undefined ∧
      native_modulus x.T s.Stored x.value s.m_t = .undefined ∧
      operator_div x s ≠ .undefined ∧ operator_mod x s ≠ .undefined) ∧
    (x.value = 0 → s.m_t ≠ 0 → s.Stored.holds s.m_t →
      operator_div x s = .returns 0 ∧ operator_mod x s = .returns 0) := by
  have hC := (common_type_bits x.T s.Stored).1
  have hz := convert_zero (common_type x.T s.Stored) (by omega)
  refine ⟨?_, ?_, ?_, ?_⟩
  · constructor
    · intro h
      by_contra hne
      have hne0 : ¬ (0 = s.m_t) := fun e => hne e.symm
      simp only [operator_div, safe_compare.equal, hne0, decide_False, Bool.false_eq_true,
        if_false, native_divide] at h
      split_ifs at h <;> simp [static_cast] at h
    · intro h
      simp [operator_div, safe_compare.equal, h]
  · constructor
    · intro h
      by_contra hne
      have hne0 : ¬ (0 = s.m_t) := fun e => hne e.symm
      simp only [operator_mod, safe_compare.equal, hne0, decide_False, Bool.false_eq_true,
        if_false, native_modulus] at h
      split_ifs at h <;> simp [static_cast] at h
    · intro h
      simp [operator_mod, safe_compare.equal, h]
  · intro h
    simp [operator_div, operator_mod, native_divide, native_modulus, safe_compare.equal, h, hz]
  · intro hx hne hv
    have hne0 : ¬ (0 = s.m_t) := fun e => hne e.symm
    obtain ⟨hd, hm⟩ := native_zero_dividend x.T s.Stored s.m_t hv hne
    simp [operator_div, operator_mod, safe_compare.equal, hne0, hx, hd, hm, static_cast, hz]

/-- Witness of C6: 7 / safe(0) raises the domain error, 0 / safe(2) returns 0. -/
theorem operator_div_mod_zero_divisor_witness :
    operator_div (P := Nat) ⟨int_type, 7⟩ ⟨int_type, 0, 0⟩
      = .raises .domain_error "Divide by zero" ∧
    native_divide int_type int_type 7 0 = .undefined ∧
    operator_div (P := Nat) ⟨int_type, 0⟩ ⟨int_type, 0, 2⟩ = .returns 0 ∧
    operator_mod (P := Nat) ⟨int_type, 0⟩ ⟨int_type, 0, 2⟩ = .returns 0 :=
  ⟨(operator_div_mod_zero_divisor ⟨int_type, 7⟩ ⟨int_type, 0, 0⟩).1.2 rfl,
   ((operator_div_mod_zero_divisor (P := Nat) ⟨int_type, 7⟩ ⟨int_type, 0, 0⟩).2.2.1 rfl).1,
   ((operator_div_mod_zero_divisor ⟨int_type, 0⟩ ⟨int_type, 0, 2⟩).2.2.2 rfl
      (by decide) (by decide)).1,
   ((operator_div_mod_zero_divisor ⟨int_type, 0⟩ ⟨int_type, 0, 2⟩).2.2.2 rfl
      (by decide) (by decide)).2⟩

/-- C7, as stated, fails: under a policy set whose exception policy substitutes the value 0,
`7 / safe(0)` and `7 % safe(0)` still raise the domain error. -/
theorem operator_div_mod_not_routed :
    (nat_traits.get_exception_policy 1).on_error .domain_error = .returns 0 ∧
    (nat_traits.get_exception_policy 1).on_error .divide_by_zero = .returns 0 ∧
    operator_div (P := Nat) ⟨int_type, 7⟩ ⟨int_type, 1, 0⟩
      = .raises .domain_error "Divide by zero" ∧
    operator_mod (P := Nat) ⟨int_type, 7⟩ ⟨int_type, 1, 0⟩
      = .raises .domain_error "Divide by zero" ∧
    operator_div (P := Nat) ⟨int_type, 7⟩ ⟨int_type, 1, 0⟩
      ≠ (nat_traits.get_exception_policy 1).on_error .domain_error ∧
    operator_mod (P := Nat) ⟨int_type, 7⟩ ⟨int_type, 1, 0⟩
      ≠ (nat_traits.get_exception_policy 1).on_error .domain_error := by
  decide

/-- C7, amended: at a divisor with stored value zero, `x / s` and `x % s` raise the domain
error "Divide by zero" themselves; the outcome is the same under every policy set of `s`,
and it is the outcome chosen by the exception policy of `s` only when that policy raises
this very error. -/
theorem operator_div_mod_raise_directly {P : Type} (traits : policy_traits P)
    (x : integral_value) (s : safe_base P) (h : s.m_t = 0) :
    operator_div x s = .raises .domain_error "Divide by zero" ∧
    operator_mod x s = .raises .domain_error "Divide by zero" ∧
    (∀ q : P, operator_div x ⟨s.Stored, q, s.m_t⟩ = operator_div x s ∧
      operator_mod x ⟨s.Stored, q, s.m_t⟩ = operator_mod x s) ∧
    (∀ c, (operator_div x s = (traits.get_exception_policy s.policies).on_error c ↔
        (traits.get_exception_policy s.policies).on_error c
          = .raises .domain_error "Divide by zero") ∧
      (operator_mod x s = (traits.get_exception_policy s.policies).on_error c ↔
        (traits.get_exception_policy s.policies).on_error c
          = .raises .domain_error "Divide by zero")) := by
  have hd : operator_div x s = .raises .domain_error "Divide by zero" := by
    simp [operator_div, safe_compare.equal, h]
  have hm : operator_mod x s = .raises .domain_error "Divide by zero" := by
    simp [operator_mod, safe_compare.equal, h]
  refine ⟨hd, hm, ?_, ?_⟩
  · intro q
    exact ⟨rfl, rfl⟩
  · intro c
    rw [hd, hm]
    exact ⟨eq_comm, eq_comm⟩

/-- Witness of the amended C7: `7 / safe(0)` raises the domain error under the policy set
that would substitute a value. -/
theorem operator_div_mod_raise_directly_witness :
    operator_div (P := Nat) ⟨int_type, 7⟩ ⟨int_type, 1, 0⟩
      = .raises .domain_error "Divide by zero" :=
  (operator_div_mod_raise_directly nat_traits ⟨int_type, 7⟩ ⟨int_type, 1, 0⟩ rfl).1

/-! ## Comparisons with a plain value on the left -/

/-- C8 fails on the code: with member comparisons that compare values, the plain 5 and the
safe 3 differ, `safe(3) != 5` is true and `5 == safe(3)` is false, yet `5 != safe(3)`
is false, because the adapter evaluates `rhs != rhs`. -/
theorem operator_ne_compares_rhs_with_itself :
    operator_ne (value_members Nat) ⟨int_type, 5⟩ ⟨int_type, 0, 3⟩ = false ∧
    (value_members Nat).ne ⟨int_type, 0, 3⟩ (.plain ⟨int_type, 5⟩) = true ∧
    operator_eq (value_members Nat) ⟨int_type, 5⟩ ⟨int_type, 0, 3⟩ = false := by
  decide

/-- C9: each of the adapters `<`, `>`, `==`, `>=`, `<=` with a plain value on the left
returns the result of the mirrored member comparison of the safe value: `p < s` is `s > p`,
`p > s` is `s < p`, `p == s` is `s == p`, `p >= s` is `s <= p`, `p <= s` is `s >= p`. -/
theorem comparison_adapters_mirror {P : Type} (m : safe_base_members P)
    (p : integral_value) (s : safe_base P) :
    operator_lt m p s = m.gt s (.plain p) ∧
    operator_gt m p s = m.lt s (.plain p) ∧
    operator_eq m p s = m.eq s (.plain p) ∧
    operator_ge m p s = m.le s (.plain p) ∧
    operator_le m p s = m.ge s (.plain p) :=
  ⟨rfl, rfl, rfl, rfl, rfl⟩

/-- C10: when the member comparisons compare the stored value with the other operand as
mathematical integers, `p < s`, `p > s`, `p >= s`, `p <= s` with a plain `p` on the left
hold exactly when the value of `p` stands in that relation to the stored value of `s`. -/
theorem ordering_adapters_direct {P : Type} (m : safe_base_members P)
    (hm : compares_values m) (p : integral_value) (s : safe_base P) :
    (operator_lt m p s = true ↔ p.value < s.m_t) ∧
    (operator_gt m p s = true ↔ p.value > s.m_t) ∧
    (operator_ge m p s = true ↔ p.value ≥ s.m_t) ∧
    (operator_le m p s = true ↔ p.value ≤ s.m_t) := by
  obtain ⟨hgt, hlt, -, -, hle, hge⟩ := hm s (.plain p)
  refine ⟨?_, ?_, ?_, ?_⟩
  · rw [operator_lt, hgt, decide_eq_true_eq]
    exact Iff.rfl
  · rw [operator_gt, hlt, decide_eq_true_eq]
    exact Iff.rfl
  · rw [operator_ge, hle, decide_eq_true_eq]
    exact Iff.rfl
  · rw [operator_le, hge, decide_eq_true_eq]
    exact Iff.rfl

/-- Witness of C10: the plain 5 is not less than the safe 3. -/
theorem ordering_adapters_direct_witness :
    operator_lt (value_members Nat) ⟨int_type, 5⟩ ⟨int_type, 0, 3⟩ = false :=
  Bool.eq_false_iff.2 fun h =>
    absurd ((ordering_adapters_direct (value_members Nat)
      (fun _ _ => ⟨rfl, rfl, rfl, rfl, rfl, rfl⟩) ⟨int_type, 5⟩ ⟨int_type, 0, 3⟩).1.1 h)
      (by decide)

/-! ## Commutative operators with a plain value on the left -/

/-- A value that a type holds is unchanged by the conversion to that type. -/
theorem convert_of_holds (C : integral) (hC : 1 ≤ C.bits) (v : Int) (hv : C.holds v) :
    convert C v = v := by
  have hM : (2 : Int) ^ C.bits = 2 * 2 ^ (C.bits - 1) := by
    rw [← pow_succ']
    congr 1
    omega
  have hpos : (0 : Int) < 2 ^ (C.bits - 1) := by positivity
  unfold integral.holds integral.min integral.max at hv
  unfold convert
  split
  · rename_i hs
    rw [if_pos hs, if_pos hs] at hv
    rw [Int.emod_eq_of_lt (by omega) (by omega)]
    omega
  · rename_i hs
    rw [if_neg hs, if_neg hs] at hv
    exact Int.emod_eq_of_lt (by omega) (by omega)

/-- The truncating remainder of a negated dividend. -/
theorem neg_tmod (a b : Int) : (-a).tmod b = -(a.tmod b) := by
  rw [Int.tmod_def, Int.tmod_def, Int.neg_tdiv]
  ring

/-- Bounds of the truncating remainder of a non-negative dividend by a positive divisor. -/
theorem tmod_bounds_pos (a b : Int) (ha : 0 ≤ a) (hb : 0 < b) :
    0 ≤ a.tmod b ∧ a.tmod b < b ∧ a.tmod b ≤ a := by
  refine ⟨Int.tmod_nonneg b ha, Int.tmod_lt_of_pos a hb, ?_⟩
  by_cases h : a < b
  · rw [Int.tmod_eq_of_lt ha h]
  · have := Int.tmod_lt_of_pos a hb
    omega

/-- The truncating remainder is smaller than the divisor in absolute value and lies
between zero and the dividend. -/
theorem tmod_bounds (a b : Int) (hb : b ≠ 0) :
    |a.tmod b| < |b| ∧ (0 ≤ a → 0 ≤ a.tmod b ∧ a.tmod b ≤ a) ∧
    (a ≤ 0 → a ≤ a.tmod b ∧ a.tmod b ≤ 0) := by
  rw [abs_lt]
  rcases le_or_lt 0 a with ha | ha <;> rcases lt_or_gt_of_ne hb with hb' | hb'
  · have h := tmod_bounds_pos a (-b) ha (by omega)
    rw [Int.tmod_neg] at h
    rw [abs_of_neg hb']
    refine ⟨by omega, fun _ => by omega, fun _ => by omega⟩
  · have h := tmod_bounds_pos a b ha hb'
    rw [abs_of_pos hb']
    refine ⟨by omega, fun _ => by omega, fun _ => by omega⟩
  · have h := tmod_bounds_pos (-a) (-b) (by omega) (by omega)
    rw [Int.tmod_neg, neg_tmod] at h
    rw [abs_of_neg hb']
    refine ⟨by omega, fun _ => by omega, fun _ => by omega⟩
  · have h := tmod_bounds_pos (-a) b (by omega) hb'
    rw [neg_tmod] at h
    rw [abs_of_pos hb']
    refine ⟨by omega, fun _ => by omega, fun _ => by omega⟩

/-- The truncating quotient by a divisor of greater absolute value is zero. -/
theorem tdiv_eq_zero_of_abs_lt (a b : Int) (h : |a| < |b|) : a.tdiv b = 0 := by
  rcases le_or_lt 0 a with ha | ha <;> rcases le_or_lt 0 b with hb | hb
  · rw [abs_of_nonneg ha, abs_of_nonneg hb] at h
    exact Int.tdiv_eq_zero_of_lt ha h
  · rw [abs_of_nonneg ha, abs_of_neg hb] at h
    have := Int.tdiv_eq_zero_of_lt ha h
    rw [Int.tdiv_neg] at this
    omega
  · rw [abs_of_neg ha, abs_of_nonneg hb] at h
    have := Int.tdiv_eq_zero_of_lt (by omega : (0:Int) ≤ -a) h
    rw [Int.neg_tdiv] at this
    omega
  · rw [abs_of_neg ha, abs_of_neg hb] at h
    have := Int.tdiv_eq_zero_of_lt (by omega : (0:Int) ≤ -a) h
    rw [Int.neg_tdiv_neg] at this
    exact this

/-- The truncating quotient by a non-zero divisor of no greater absolute value is not zero. -/
theorem tdiv_ne_zero_of_abs_le (a b : Int) (hb : b ≠ 0) (h : |b| ≤ |a|) : a.tdiv b ≠ 0 := by
  intro hq
  have h1 := Int.tmod_def a b
  rw [hq, mul_zero, sub_zero] at h1
  have h2 := (tmod_bounds a b hb).1
  rw [h1] at h2
  omega

/-- At a non-zero divisor the adapters are the native operations, cast to the common type. -/
theorem operator_div_mod_nonzero {P : Type} (x : integral_value) (s : safe_base P)
    (h : s.m_t ≠ 0) :
    operator_div x s = static_cast (common_type x.T s.Stored)
      (native_divide x.T s.Stored x.value s.m_t) ∧
    operator_mod x s = static_cast (common_type x.T s.Stored)
      (native_modulus x.T s.Stored x.value s.m_t) := by
  have h0 : ¬ (0 = s.m_t) := fun e => h e.symm
  simp [operator_div, operator_mod, safe_compare.equal, h0]

/-- When the common type holds the dividend, the non-zero divisor and the exact quotient,
the adapters return the truncating quotient and remainder. -/
theorem operator_div_mod_exact {P : Type} (x : integral_value) (s : safe_base P)
    (h : s.m_t ≠ 0) (hx : (common_type x.T s.Stored).holds x.value)
    (hv : (common_type x.T s.Stored).holds s.m_t)
    (hq : (common_type x.T s.Stored).holds (x.value.tdiv s.m_t)) :
    operator_div x s = .returns (x.value.tdiv s.m_t) ∧
    operator_mod x s = .returns (x.value.tmod s.m_t) := by
  have hC : 1 ≤ (common_type x.T s.Stored).bits := by
    have := (common_type_bits x.T s.Stored).1
    omega
  have hcx := convert_of_holds _ hC _ hx
  have hcv := convert_of_holds _ hC _ hv
  have hcq := convert_of_holds _ hC _ hq
  have hr : (common_type x.T s.Stored).holds (x.value.tmod s.m_t) := by
    obtain ⟨-, hpos, hneg⟩ := tmod_bounds x.value s.m_t h
    have h0 := integral.holds_zero (common_type x.T s.Stored)
    unfold integral.holds at hx h0 ⊢
    rcases le_total 0 x.value with hs | hs
    · have := hpos hs
      constructor <;> omega
    · have := hneg hs
      constructor <;> omega
  have hcr := convert_of_holds _ hC _ hr
  obtain ⟨hd, hm⟩ := operator_div_mod_nonzero x s h
  rw [hd, hm]
  simp [native_divide, native_modulus, hcx, hcv, h, hq, static_cast, hcq, hcr]

/-- C12: at a non-zero stored divisor `v`, `x / s` and `x % s` are the native quotient and
remainder with dividend `x` and divisor `v`, cast to the common type of `T` and `Stored`;
when that type holds `x`, `v` and the exact quotient they are the quotient truncated toward
zero and its remainder; and when `v` is smaller than `x` in absolute value they are not the
quotient and remainder of `v` by `x`. -/
theorem operator_div_mod_dividend_first {P : Type} (x : integral_value) (s : safe_base P)
    (h : s.m_t ≠ 0) :
    operator_div x s = static_cast (common_type x.T s.Stored)
      (native_divide x.T s.Stored x.value s.m_t) ∧
    operator_mod x s = static_cast (common_type x.T s.Stored)
      (native_modulus x.T s.Stored x.value s.m_t) ∧
    ((common_type x.T s.Stored).holds x.value →
      (common_type x.T s.Stored).holds s.m_t →
      (common_type x.T s.Stored).holds (x.value.tdiv s.m_t) →
      operator_div x s = .returns (x.value.tdiv s.m_t) ∧
      operator_mod x s = .returns (x.value.tmod s.m_t) ∧
      (|s.m_t| < |x.value| →
        operator_div x s ≠ .returns (s.m_t.tdiv x.value) ∧
        operator_mod x s ≠ .returns (s.m_t.tmod x.value))) := by
  obtain ⟨hd, hm⟩ := operator_div_mod_nonzero x s h
  refine ⟨hd, hm, ?_⟩
  intro hx hv hq
  obtain ⟨hd', hm'⟩ := operator_div_mod_exact x s h hx hv hq
  refine ⟨hd', hm', ?_⟩
  intro habs
  have hz := tdiv_eq_zero_of_abs_lt s.m_t x.value habs
  have hnz := tdiv_ne_zero_of_abs_le x.value s.m_t h (le_of_lt habs)
  have hrv : s.m_t.tmod x.value = s.m_t := by
    rw [Int.tmod_def, hz, mul_zero, sub_zero]
  have hlt := (tmod_bounds x.value s.m_t h).1
  rw [hd', hm', hz, hrv]
  constructor
  · intro e
    exact hnz (outcome.returns.inj e)
  · intro e
    rw [outcome.returns.inj e] at hlt
    exact lt_irrefl _ hlt

/-- Witness of C12: `7 / safe(2)` returns 3 and `7 % safe(2)` returns 1, not the 0 and
the 2 of the swapped operands. -/
theorem operator_div_mod_dividend_first_witness :
    operator_div (P := Nat) ⟨int_type, 7⟩ ⟨int_type, 0, 2⟩ = .returns 3 ∧
    operator_mod (P := Nat) ⟨int_type, 7⟩ ⟨int_type, 0, 2⟩ = .returns 1 ∧
    operator_div (P := Nat) ⟨int_type, 7⟩ ⟨int_type, 0, 2⟩ ≠ .returns 0 ∧
    operator_mod (P := Nat) ⟨int_type, 7⟩ ⟨int_type, 0, 2⟩ ≠ .returns 2 := by
  have h := (operator_div_mod_dividend_first (P := Nat) ⟨int_type, 7⟩ ⟨int_type, 0, 2⟩
    (by decide)).2.2 (by decide) (by decide) (by decide)
  exact ⟨h.1, h.2.1, (h.2.2 (by decide)).1, (h.2.2 (by decide)).2⟩

/-- C13 fails on the code: the least `int` divided by a safe -1 is the native division of
these values, whose exact quotient 2147483648 the type `int` does not hold: no error is
signalled and the behaviour is undefined. Besides, the `int` -1 divided by a safe
`unsigned` 2 returns 2147483647, while the exact quotient is 0. -/
theorem operator_div_overflow_unchecked :
    operator_div (P := Nat) ⟨int_type, -2147483648⟩ ⟨int_type, 0, -1⟩ = .undefined ∧
    (-2147483648 : Int).tdiv (-1) = 2147483648 ∧
    ¬ int_type.holds 2147483648 ∧
    int_type.min = -2147483648 ∧
    operator_div (P := Nat) ⟨int_type, -1⟩ ⟨uint_type, 0, 2⟩ = .returns 2147483647 ∧
    (-1 : Int).tdiv 2 = 0 := by
  decide

/-- C17, as stated, fails: the `int` -1 and a safe `unsigned` 2 give the quotient
2147483647 and the remainder 1; the quotient times 2 plus the remainder is not -1, and
the remainder is positive while the dividend is negative. -/
theorem operator_div_mod_mixed_signs :
    operator_div (P := Nat) ⟨int_type, -1⟩ ⟨uint_type, 0, 2⟩ = .returns 2147483647 ∧
    operator_mod (P := Nat) ⟨int_type, -1⟩ ⟨uint_type, 0, 2⟩ = .returns 1 ∧
    (2147483647 : Int) * 2 + 1 ≠ -1 ∧
    Int.sign 1 ≠ Int.sign (-1) := by
  decide

/-- C17, amended: at a non-zero stored divisor `v`, when the common type of `T` and
`Stored` holds `x`, `v` and the exact quotient, `x / s` and `x % s` return a quotient `q`
and a remainder `r` with `q * v + r = x`, `|r| < |v|`, and `r` zero or of the sign of `x`. -/
theorem operator_div_mod_consistent {P : Type} (x : integral_value) (s : safe_base P)
    (h : s.m_t ≠ 0) (hx : (common_type x.T s.Stored).holds x.value)
    (hv : (common_type x.T s.Stored).holds s.m_t)
    (hq : (common_type x.T s.Stored).holds (x.value.tdiv s.m_t)) :
    ∃ q r : Int, operator_div x s = .returns q ∧ operator_mod x s = .returns r ∧
      q * s.m_t + r = x.value ∧ |r| < |s.m_t| ∧ (r = 0 ∨ Int.sign r = Int.sign x.value) := by
  obtain ⟨hd, hm⟩ := operator_div_mod_exact x s h hx hv hq
  obtain ⟨habs, hpos, hneg⟩ := tmod_bounds x.value s.m_t h
  refine ⟨x.value.tdiv s.m_t, x.value.tmod s.m_t, hd, hm,
    Int.tdiv_add_tmod' x.value s.m_t, habs, ?_⟩
  rcases lt_trichotomy x.value 0 with hs | hs | hs
  · have := hneg (le_of_lt hs)
    rcases eq_or_lt_of_le this.2 with e | e
    · exact Or.inl e
    · exact Or.inr (by rw [Int.sign_eq_neg_one_of_neg e, Int.sign_eq_neg_one_of_neg hs])
  · have := hpos (le_of_eq hs.symm)
    exact Or.inl (by omega)
  · have := hpos (le_of_lt hs)
    rcases eq_or_lt_of_le this.1 with e | e
    · exact Or.inl e.symm
    · exact Or.inr (by rw [Int.sign_eq_one_of_pos e, Int.sign_eq_one_of_pos hs])

/-- Witness of the amended C17: `-7 / safe(2)` returns -3 and `-7 % safe(2)` returns -1. -/
theorem operator_div_mod_consistent_witness :
    ∃ q r : Int, operator_div (P := Nat) ⟨int_type, -7⟩ ⟨int_type, 0, 2⟩ = .returns q ∧
      operator_mod (P := Nat) ⟨int_type, -7⟩ ⟨int_type, 0, 2⟩ = .returns r ∧
      q * 2 + r = -7 ∧ |r| < |(2 : Int)| ∧ (r = 0 ∨ Int.sign r = Int.sign (-7)) :=
  operator_div_mod_consistent (P := Nat) ⟨int_type, -7⟩ ⟨int_type, 0, 2⟩
    (by decide) (by decide) (by decide) (by decide)

/-! ## The inequality adapter and trichotomy -/

/-- C14: `p != s` with a plain `p` on the left is the member comparison `s != s`; its
result is the same for every `p`; and when that member comparison of `s` with itself is
false, `p != s` is false. -/
theorem operator_ne_ignores_lhs {P : Type} (m : safe_base_members P)
    (p : integral_value) (s : safe_base P) :
    operator_ne m p s = m.ne s (.safe s) ∧
    (∀ p2 : integral_value, operator_ne m p2 s = operator_ne m p s) ∧
    (m.ne s (.safe s) = false → operator_ne m p s = false) ∧
    (compares_values m → operator_ne m p s = false) := by
  refine ⟨rfl, fun _ => rfl, fun h => h, ?_⟩
  intro hm
  obtain ⟨-, -, -, hne, -, -⟩ := hm s (.safe s)
  rw [operator_ne, hne]
  simp [operand.base_value]

/-- Witness of C14: the plain 5 and the safe 3 differ, and `5 != safe(3)` is false. -/
theorem operator_ne_ignores_lhs_witness :
    (5 : Int) ≠ 3 ∧
    operator_ne (value_members Nat) ⟨int_type, 5⟩ ⟨int_type, 0, 3⟩ = false :=
  ⟨by decide,
   (operator_ne_ignores_lhs (value_members Nat) ⟨int_type, 5⟩ ⟨int_type, 0, 3⟩).2.2.2
     (fun _ _ => ⟨rfl, rfl, rfl, rfl, rfl, rfl⟩)⟩

/-- C18: when the member comparisons compare values as mathematical integers, exactly one
of `p < s`, `p == s`, `p > s` is true; `p <= s` is true exactly when `p < s` or `p == s`
is; and `p >= s` is true exactly when `p > s` or `p == s` is. -/
theorem comparison_adapters_trichotomy {P : Type} (m : safe_base_members P)
    (hm : compares_values m) (p : integral_value) (s : safe_base P) :
    ((operator_lt m p s = true ∧ operator_eq m p s = false ∧ operator_gt m p s = false) ∨
     (operator_lt m p s = false ∧ operator_eq m p s = true ∧ operator_gt m p s = false) ∨
     (operator_lt m p s = false ∧ operator_eq m p s = false ∧ operator_gt m p s = true)) ∧
    (operator_le m p s = true ↔ (operator_lt m p s = true ∨ operator_eq m p s = true)) ∧
    (operator_ge m p s = true ↔ (operator_gt m p s = true ∨ operator_eq m p s = true)) := by
  obtain ⟨hgt, hlt, heq, -, hle, hge⟩ := hm s (.plain p)
  simp only [operator_lt, operator_eq, operator_gt, operator_le, operator_ge, hgt, hlt, heq,
    hle, hge, operand.base_value, decide_eq_true_eq, decide_eq_false_iff_not]
  refine ⟨?_, ?_, ?_⟩
  · rcases lt_trichotomy s.m_t p.value with h | h | h
    · right; right
      refine ⟨?_, ?_, h⟩ <;> omega
    · right; left
      refine ⟨?_, h, ?_⟩ <;> omega
    · left
      refine ⟨h, ?_, ?_⟩ <;> omega
  · constructor
    · intro h
      rcases eq_or_lt_of_le h with e | e
      · exact Or.inr e.symm
      · exact Or.inl e
    · intro h
      rcases h with h | h <;> omega
  · constructor
    · intro h
      rcases eq_or_lt_of_le h with e | e
      · exact Or.inr e
      · exact Or.inl e
    · intro h
      rcases h with h | h <;> omega

/-- Witness of C18: of the plain 5 and the safe 3, only `5 > safe(3)` is true. -/
theorem comparison_adapters_trichotomy_witness :
    operator_lt (value_members Nat) ⟨int_type, 5⟩ ⟨int_type, 0, 3⟩ = false ∧
    operator_eq (value_members Nat) ⟨int_type, 5⟩ ⟨int_type, 0, 3⟩ = false ∧
    operator_gt (value_members Nat) ⟨int_type, 5⟩ ⟨int_type, 0, 3⟩ = true := by
  rcases (comparison_adapters_trichotomy (value_members Nat)
    (fun _ _ => ⟨rfl, rfl, rfl, rfl, rfl, rfl⟩) ⟨int_type, 5⟩ ⟨int_type, 0, 3⟩).1
    with h | h | h
  · exact absurd h.1 (by decide)
  · exact absurd h.2.1 (by decide)
  · exact h

/-! ## Result types and symmetry of the resolver -/

/-- C15: when the operand types `T`, `U` resolve to the policy set `p`, `addition_result`
and `subtraction_result` have `p` as their policy set, the promotion and exception
policies of `p`, and as their type the addition and subtraction rule of that promotion
policy at `(T, U, p)`; `operator+` and `operator-` on operands of these types hand the
base type of that type and the exception policy of `p` to the checked primitive, whatever
the values of the operands. -/
theorem result_type_dispatch {P : Type} [DecidableEq P] (traits : policy_traits P)
    (checked_add checked_subtract : checked_primitive) (T U : operand_type P) (p : P)
    (h : get_common_policies T U = .ok (.policies p)) :
    addition_result traits T U
      = .ok ⟨p, traits.get_promotion_policy p, traits.get_exception_policy p,
          (traits.get_promotion_policy p).addition_result T U p⟩ ∧
    subtraction_result traits T U
      = .ok ⟨p, traits.get_promotion_policy p, traits.get_exception_policy p,
          (traits.get_promotion_policy p).subtraction_result T U p⟩ ∧
    (∀ t u : operand P, t.type = T → u.type = U →
      operator_plus traits checked_add t u
        = .ok (checked_add (base_type ((traits.get_promotion_policy p).addition_result T U p))
            (traits.get_exception_policy p) t.base_value u.base_value) ∧
      operator_minus traits checked_subtract t u
        = .ok (checked_subtract
            (base_type ((traits.get_promotion_policy p).subtraction_result T U p))
            (traits.get_exception_policy p) t.base_value u.base_value)) := by
  refine ⟨?_, ?_, ?_⟩
  · simp [addition_result, h, resolved, bind, Except.bind, pure, Except.pure]
  · simp [subtraction_result, h, resolved, bind, Except.bind, pure, Except.pure]
  · intro t u ht hu
    subst ht hu
    exact ⟨operator_plus_resolved traits checked_add t u p h,
      operator_minus_resolved traits checked_subtract t u p h⟩

/-- Witness of C15: a safe 8-bit type and the plain `int` resolve to the policy set 0, and
the result type of their addition is the safe 8-bit type of the promotion policy of 0. -/
theorem result_type_dispatch_witness :
    (addition_result nat_traits (.safe int8 0) (.plain int_type)).map (fun r => r.type)
      = .ok (.safe int8 0) := by
  rw [(result_type_dispatch nat_traits checked.add checked.subtract
    (.safe int8 0) (.plain int_type) 0 rfl).1]
  rfl

/-- C16: resolution is symmetric: `get_common_policies<A, B>` and
`get_common_policies<B, A>` are the same result, so one succeeds exactly when the other
does, and with the same policy set. -/
theorem get_common_policies_symmetric {P : Type} [DecidableEq P] (A B : operand_type P) :
    get_common_policies A B = get_common_policies B A ∧
    ((∃ r, get_common_policies A B = .ok r) ↔ (∃ r, get_common_policies B A = .ok r)) ∧
    (∀ r r2, get_common_policies A B = .ok r → get_common_policies B A = .ok r2 →
      r = r2) := by
  have hsym : get_common_policies A B = get_common_policies B A := by
    cases A <;> cases B <;> simp [get_common_policies, is_safe, get_policies]
    rename_i S1 p S2 q
    by_cases hpq : p = q
    · subst hpq
      simp
    · have hqp : ¬ q = p := fun e => hpq e.symm
      simp [hpq, hqp]
  refine ⟨hsym, ?_, ?_⟩
  · rw [hsym]
  · intro r r2 h1 h2
    rw [hsym, h2] at h1
    exact (Except.ok.inj h1).symm

/-- Witness of C16: two safe types that share the policy set 0 resolve to 0 in both
orders. -/
theorem get_common_policies_symmetric_witness :
    get_common_policies (.safe int8 (0 : Nat)) (.safe int_type 0)
      = get_common_policies (.safe int_type (0 : Nat)) (.safe int8 0) ∧
    mpl_type.policies (0 : Nat) = mpl_type.policies 0 :=
  ⟨(get_common_policies_symmetric (.safe int8 (0 : Nat)) (.safe int_type 0)).1,
   (get_common_policies_symmetric (.safe int8 (0 : Nat)) (.safe int_type 0)).2.2
     _ _ rfl rfl⟩

end SafeNumerics
